import Mathlib

/-
Verification of the patents-topic-modeling dashboard against its design
specification.  The Python sources (`s3_utils.py`, `patents_dashboard.py`,
`pages/patent_explorer.py`) are shallowly embedded below: numpy arrays and
pandas DataFrames become lists of rows, dictionaries become association
lists, and the S3 store becomes an explicit function argument.  Floating
point values (similarities, topic-term weights) are modelled as elements
of an arbitrary linear ordered commutative ring `α`; the development
instantiates `α := ℚ` where the specification demands exact decimals such
as 0.8, and `α := ℤ` where a decidable concrete evaluation is wanted.
`numpy.argsort` (used once, on a 1-D array) is modelled as the stable
ascending sort of (value, row-index) pairs in lexicographic order.
numpy's default introsort guarantees only the ascending value sequence,
not a tie order, but it runs plain insertion sort — stable ascending —
on arrays of at most sixteen elements, so on the concrete arrays below
the model is exact.  Theorems quantifying over arbitrary arrays use the
stable model only through consequences that hold under any correct
argsort, whatever its tie permutation: the value sequence at each
position, and the position of a strict minimum.  Tie-order facts are
asserted only at concrete inputs inside the insertion-sort regime.
-/

namespace PatentsTopic

variable {α : Type} [LinearOrderedCommRing α]

/-- Dot product of two embedding rows.  The rows of
`embeddings_normalized` are pre-normalized, so this is exactly the cosine
similarity computed by `sklearn.metrics.pairwise.cosine_similarity`. -/
def dot (u v : List α) : α := (List.zipWith (fun a b => a * b) u v).sum

/-- `cosine_similarity(query_emb, embeddings_normalized)[0]`
(patent_explorer.py line 42): one similarity per corpus row.  sklearn
divides each dot product by the two row norms; the Embedding Matrix
invariant is that rows are pre-normalized, so the similarity is the
plain dot product.  Concrete matrices used for value-sensitive facts
below have exactly unit-norm rows, where this coincidence is exact. -/
def cosineSims (q : List α) (rows : List (List α)) : List α :=
  rows.map (fun r => dot q r)

/-- Lexicographic-ascending order on (value, original row index) pairs:
the deterministic stable model of `numpy.argsort` on a 1-D array. -/
def keyAsc (p q : α × ℕ) : Prop :=
  p.1 < q.1 ∨ (p.1 = q.1 ∧ p.2 ≤ q.2)

instance : DecidableRel (keyAsc (α := α)) := fun p q =>
  inferInstanceAs (Decidable (p.1 < q.1 ∨ (p.1 = q.1 ∧ p.2 ≤ q.2)))

instance : IsTotal (α × ℕ) keyAsc where
  total p q := by
    rcases lt_trichotomy p.1 q.1 with h | h | h
    · exact Or.inl (Or.inl h)
    · rcases Nat.le_total p.2 q.2 with h2 | h2
      · exact Or.inl (Or.inr ⟨h, h2⟩)
      · exact Or.inr (Or.inr ⟨h.symm, h2⟩)
    · exact Or.inr (Or.inl h)

instance : IsTrans (α × ℕ) keyAsc where
  trans p q r hpq hqr := by
    rcases hpq with h1 | ⟨h1, h1i⟩ <;> rcases hqr with h2 | ⟨h2, h2i⟩
    · exact Or.inl (h1.trans h2)
    · exact Or.inl (h2 ▸ h1)
    · exact Or.inl (h1 ▸ h2)
    · exact Or.inr ⟨h1.trans h2, h1i.trans h2i⟩

/-- The (value, row-index) pairs of a 1-D array. -/
def keyed (xs : List α) : List (α × ℕ) :=
  (List.range xs.length).map (fun i => (xs.getD i 0, i))

/-- Stable model of `similarities.argsort()`: row indices in ascending
order of value, ties in ascending row order.  numpy's default introsort
documents only the ascending value order; it is genuinely this stable
insertion sort on arrays of at most sixteen elements.  Universal
theorems below depend on this model only through tie-independent
consequences. -/
def argsortAsc (xs : List α) : List ℕ :=
  (List.insertionSort keyAsc (keyed xs)).map Prod.snd

/-- `similarities.argsort()[-5:][::-1]` (patent_explorer.py line 44):
the last (up to) five positions of the ascending argsort, reversed. -/
def topIndices (sims : List α) : List ℕ :=
  ((argsortAsc sims).drop (sims.length - 5)).reverse

/-- Lines 41–43 of patent_explorer.py: the dense similarity row for the
query patent, with the query's own entry overwritten by `-1`.  Note that
`cosine_similarity` returns a fresh array, so this write never touches the
cached embedding matrix. -/
def maskedSims (emb : List (List α)) (idx : ℕ) : List α :=
  (cosineSims (emb.getD idx []) emb).set idx (-1)

example : maskedSims (α := ℤ) [[1, 0], [0, 1], [1, 1]] 0 = [-1, 0, 1] := by decide
example : topIndices (α := ℤ) [-1, 0, 1] = [2, 1, 0] := by decide
example : topIndices (α := ℤ) [-1, 5, 5, 6, 7, 8] = [5, 4, 3, 2, 1] := by decide
example : topIndices (α := ℤ) [5, -1, 3] = [0, 2, 1] := by decide

/-- Lexicographic order comparing `f`-keys descending and original
positions ascending: the deterministic model of Python's stable
`sorted(l, key=f, reverse=True)` and of pandas `nlargest` row ordering. -/
def keyDescBy {β γ : Type} [LinearOrder γ] (f : β → γ) (p q : β × ℕ) : Prop :=
  f q.1 < f p.1 ∨ (f p.1 = f q.1 ∧ p.2 ≤ q.2)

instance {β γ : Type} [LinearOrder γ] (f : β → γ) : DecidableRel (keyDescBy f) :=
  fun p q => inferInstanceAs (Decidable (f q.1 < f p.1 ∨ (f p.1 = f q.1 ∧ p.2 ≤ q.2)))

instance {β γ : Type} [LinearOrder γ] (f : β → γ) : IsTotal (β × ℕ) (keyDescBy f) where
  total p q := by
    rcases lt_trichotomy (f p.1) (f q.1) with h | h | h
    · exact Or.inr (Or.inl h)
    · rcases Nat.le_total p.2 q.2 with h2 | h2
      · exact Or.inl (Or.inr ⟨h, h2⟩)
      · exact Or.inr (Or.inr ⟨h.symm, h2⟩)
    · exact Or.inl (Or.inl h)

instance {β γ : Type} [LinearOrder γ] (f : β → γ) : IsTrans (β × ℕ) (keyDescBy f) where
  trans p q r hpq hqr := by
    rcases hpq with h1 | ⟨h1, h1i⟩ <;> rcases hqr with h2 | ⟨h2, h2i⟩
    · exact Or.inl (h2.trans h1)
    · exact Or.inl (h2 ▸ h1)
    · exact Or.inl (h1 ▸ h2)
    · exact Or.inr ⟨h1.trans h2, h1i.trans h2i⟩

/-- A list tagged with original positions, so that a sort on it can be
made stable. -/
def withIdx {β : Type} (l : List β) : List (β × ℕ) :=
  l.zip (List.range l.length)

/-- Python's `sorted(l, key=f, reverse=True)` (stable): descending in the
key, ties kept in original order.  Also models the row order produced by
pandas `DataFrame.nlargest` before `.head`-style truncation. -/
def sortedDescBy {β γ : Type} [LinearOrder γ] (f : β → γ) (l : List β) : List β :=
  (List.insertionSort (keyDescBy f) (withIdx l)).map Prod.fst

example : sortedDescBy (fun p : String × ℤ => p.2)
    [("a", 1), ("b", 3), ("c", 3), ("d", 2)] =
    [("b", 3), ("c", 3), ("d", 2), ("a", 1)] := by decide

/-- A BERTopic model, as used by the page: `model.get_topic(tid)` yields
the topic's (term, weight) pairs, the empty list standing for the falsy
value returned for an unknown topic. -/
abbrev TopicModel (α : Type) : Type := Int → List (String × α)

/-- Lines 26–37 of patent_explorer.py: the topic-term portion of the page.
Topic id `-1` is the "no dominant topic" sentinel and yields no terms;
otherwise the model is queried and the five heaviest terms are kept
(`sorted(topic_words, key=lambda x: x[1], reverse=True)[:5]`).  When
`get_topic` returns a falsy value the page prints "No topic words found",
i.e. it likewise yields no term list. -/
def topicTermsOut (tm : TopicModel α) (tid : Int) : Option (List String) :=
  if tid = -1 then none
  else
    let topic_words := tm tid
    if topic_words.isEmpty then some []
    else some (((sortedDescBy (fun p => p.2) topic_words).take 5).map Prod.fst)

/-- One row of the `df_full.pkl` patent table, restricted to the columns
the explorer page reads. -/
structure PatentRecord where
  patent_number : String
  title : String
  topic : Int
  deriving DecidableEq, Inhabited, Repr

/-- Dictionary lookup in the unpickled `patent_to_idx` mapping. -/
def assocLookup {β : Type} (m : List (String × β)) (k : String) : Option β :=
  (m.find? (fun p => p.1 = k)).map Prod.snd

/-- The result assembled by the explorer page for a known patent: its
title, its topic terms (`none` for the no-topic sentinel), and the list of
neighbor rows in display order, each as (patent_number, score, title). -/
structure LookupResult (α : Type) where
  title : String
  topicTerms : Option (List String)
  neighbors : List (String × α × String)
  deriving DecidableEq

/-- Lines 17–52 of patent_explorer.py as a single operation: resolve the
patent id through `patent_to_idx` (absent ids produce the page's
`st.error` text "Patent number not found in system." instead of a crash),
read title and topic from the table row, and rank neighbors by masked
cosine similarity. -/
def lookupPatent (df : List PatentRecord) (emb : List (List α))
    (patent_to_idx : List (String × ℕ)) (tm : TopicModel α) (pid : String) :
    Except String (LookupResult α) :=
  match assocLookup patent_to_idx pid with
  | none => Except.error "Patent number not found in system."
  | some idx =>
    let row := df.getD idx default
    let sims := maskedSims emb idx
    let tis := topIndices sims
    Except.ok
      { title := row.title
        topicTerms := topicTermsOut tm row.topic
        neighbors := tis.map (fun i =>
          ((df.getD i default).patent_number, sims.getD i 0, (df.getD i default).title)) }

instance {ε β : Type} [DecidableEq ε] [DecidableEq β] : DecidableEq (Except ε β) :=
  fun a b =>
    match a, b with
    | .error e, .error f =>
      if h : e = f then isTrue (by rw [h]) else isFalse (by simp [h])
    | .error _, .ok _ => isFalse (by simp)
    | .ok _, .error _ => isFalse (by simp)
    | .ok x, .ok y =>
      if h : x = y then isTrue (by rw [h]) else isFalse (by simp [h])

example :
    lookupPatent (α := ℤ)
      [⟨"p0", "t0", -1⟩, ⟨"p1", "t1", 3⟩]
      [[1, 0], [0, 1]] [("p0", 0), ("p1", 1)] (fun _ => []) "zz" =
    Except.error "Patent number not found in system." := by decide

example :
    lookupPatent (α := ℤ)
      [⟨"p0", "t0", -1⟩, ⟨"p1", "t1", 3⟩]
      [[1, 0], [0, 1]] [("p0", 0), ("p1", 1)] (fun _ => [("w", 2)]) "p0" =
    Except.ok ⟨"t0", none, [("p1", 0, "t1"), ("p0", -1, "t0")]⟩ := by decide

/-- One row of the precomputed `df_topics_count.pkl` aggregate table.
The loaded table has columns topic_id, count and topic_words; the
dashboard later adds a derived `topic_status` column in place, modelled
here as an optional field that is `none` at load time. -/
structure TopicCountRow where
  topic_id : Int
  count : ℕ
  topic_words : String
  topic_status : Option String := none
  deriving DecidableEq, Inhabited, Repr

/-- One row of the precomputed `df_topics_by_year.pkl` aggregate table. -/
structure ByYearRow where
  topic_id : Int
  year : Int
  count : ℕ
  topic_words : String
  deriving DecidableEq, Inhabited, Repr

/-- Lines 92–94 of patents_dashboard.py: copy the cached topic-count
table, drop the no-topic sentinel rows, and keep the ten largest counts
(`df_topics_count.nlargest(10, 'count')`, descending, first occurrences
kept on ties). -/
def topTopicsCount (df_topics : List TopicCountRow) : List TopicCountRow :=
  (sortedDescBy (fun r => r.count)
    (df_topics.filter (fun r => r.topic_id ≠ -1))).take 10

/-- Line 125 of patents_dashboard.py:
`df_topics["topic_status"] = df_topics["topic_id"].apply(...)`.
pandas column assignment writes through to the cached DataFrame object —
this is performed on the object returned by `load_topics_count_df()`,
not on a copy. -/
def addTopicStatus (df_topics : List TopicCountRow) : List TopicCountRow :=
  df_topics.map (fun r =>
    { r with
      topic_status := some (if r.topic_id = -1 then "No Topic" else "Topic Exists") })

/-- The two cached artifacts the dashboard pages hold references to. -/
structure DashArtifacts where
  byYear : List ByYearRow
  topicsCount : List TopicCountRow
  deriving DecidableEq

/-- One top-to-bottom render of patents_dashboard.py, restricted to its
effect on the cached artifacts and to the top-10 chart data: the top-10
table is computed from a copy (line 92), after which line 125 adds the
`topic_status` column in place to the cached topic-count table.  The
by-year table is only read. -/
def dashboardRender (a : DashArtifacts) : DashArtifacts × List TopicCountRow :=
  let top10 := topTopicsCount a.topicsCount
  ({ byYear := a.byYear, topicsCount := addTopicStatus a.topicsCount }, top10)

example :
    dashboardRender ⟨[], [⟨5, 3, "x", none⟩]⟩ =
      (⟨[], [⟨5, 3, "x", some "Topic Exists"⟩]⟩, [⟨5, 3, "x", none⟩]) := by decide

/-- The S3 object path built by every loader in s3_utils.py:
`f"{prefix}/{key}" if prefix else key`. -/
def s3Path (pfx key : String) : String :=
  if pfx = "" then key else pfx ++ "/" ++ key

/-- `key.data` occurs inside `msg.data`: the message names the key. -/
def mentions (msg key : String) : Prop :=
  List.IsInfix key.data msg.data

instance (msg key : String) : Decidable (mentions msg key) :=
  inferInstanceAs (Decidable (List.IsInfix key.data msg.data))

/-- `load_pickle_from_s3` (s3_utils.py lines 52–75), with the S3 client
and the unpickler as explicit functions and the log made explicit.  The
`try` block covers both the fetch and the deserialization; on any failure
the original error is logged and re-raised unchanged (`raise`).  Returns
the outcome together with the emitted log lines. -/
def loadPickleFromS3 {σ β : Type} (getObject : String → Except String σ)
    (unpickle : σ → Except String β) (key bucket pfx : String) :
    Except String β × List String :=
  let path := s3Path pfx key
  let infoLog := "Loading pickle file from s3://" ++ bucket ++ "/" ++ path
  match getObject path with
  | Except.error e =>
    (Except.error e, [infoLog, "Error loading pickle file from S3: " ++ e])
  | Except.ok body =>
    match unpickle body with
    | Except.error e =>
      (Except.error e, [infoLog, "Error loading pickle file from S3: " ++ e])
    | Except.ok v => (Except.ok v, [infoLog])

/-- `load_faiss_from_s3` (s3_utils.py lines 103–129): identical control
flow to the pickle loader (one fetch, one deserialization step through a
temporary file, errors logged and re-raised unchanged), with its own log
wording. -/
def loadFaissFromS3 {σ β : Type} (getObject : String → Except String σ)
    (readIndex : σ → Except String β) (key bucket pfx : String) :
    Except String β × List String :=
  let path := s3Path pfx key
  let infoLog := "Loading FAISS index from s3://" ++ bucket ++ "/" ++ path
  match getObject path with
  | Except.error e =>
    (Except.error e, [infoLog, "Error loading FAISS index from S3: " ++ e])
  | Except.ok body =>
    match readIndex body with
    | Except.error e =>
      (Except.error e, [infoLog, "Error loading FAISS index from S3: " ++ e])
    | Except.ok v => (Except.ok v, [infoLog])

/-- The memo table kept by `functools.cache` for one loader: one entry
per distinct argument tuple.  In s3_utils.py the argument tuple of every
cached loader is `(bucket, prefix)`. -/
abbrev CacheTable (κ β : Type) : Type := List (κ × β)

/-- Association-list lookup in a memo table. -/
def tableLookup {κ β : Type} [DecidableEq κ] (s : CacheTable κ β) (k : κ) :
    Option β :=
  (s.find? (fun p => p.1 = k)).map Prod.snd

/-- One call through a `@cache`-wrapped loader (s3_utils.py lines
175–201): on a hit the memoized object is returned and the wrapped
fetcher is not invoked; on a miss the fetcher runs once and its result is
stored.  The boolean records whether a remote fetch happened. -/
def cachedCall {κ β : Type} [DecidableEq κ] (fetch : κ → β) (k : κ)
    (s : CacheTable κ β) : β × CacheTable κ β × Bool :=
  match tableLookup s k with
  | some v => (v, s, false)
  | none => (fetch k, (k, fetch k) :: s, true)

/-- The argument tuples that cause a remote fetch over a whole sequence
of loader calls starting from memo table `s`. -/
def fetchesDuring {κ β : Type} [DecidableEq κ] (fetch : κ → β) :
    List κ → CacheTable κ β → List κ
  | [], _ => []
  | k :: ks, s =>
    match tableLookup s k with
    | some _ => fetchesDuring fetch ks s
    | none => k :: fetchesDuring fetch ks ((k, fetch k) :: s)

/-- A memo table is consistent with a fetcher when every stored value is
what the fetcher returns for its key — true of every table `functools.cache`
ever builds, since values are only ever stored from the fetcher itself. -/
def Consistent {κ β : Type} (fetch : κ → β) (s : CacheTable κ β) : Prop :=
  ∀ p ∈ s, p.2 = fetch p.1

example :
    cachedCall (fun bp : String × String => bp.2 ++ "/x") ("b", "p") [] =
      ("p/x", [(("b", "p"), "p/x")], true) := by decide
example : fetchesDuring (fun n : ℕ => n + 1) [1, 2, 1, 1, 3, 2] [] = [1, 2, 3] := by
  decide

/-- The two process-wide configuration settings read by s3_utils.py
(lines 23–24): the store bucket and the dataset-variant identifier. -/
structure Config where
  bucket : String
  datasetType : String
  deriving DecidableEq

/-- `S3_PREFIX = f"outputs_{str.lower(DATASET_TYPE)}"` (s3_utils.py
line 25): the default dataset-variant path derived from configuration. -/
def s3DefaultPfx (cfg : Config) : String :=
  "outputs_" ++ cfg.datasetType.toLower

/-- A typed remote artifact, as deserialized by the loaders. -/
inductive Artifact (α : Type) where
  | table : List PatentRecord → Artifact α
  | matrix : List (List α) → Artifact α
  | idxMap : List (String × ℕ) → Artifact α
  | topics : TopicModel α → Artifact α
  | aggCount : List TopicCountRow → Artifact α
  | aggYear : List ByYearRow → Artifact α

/-- The remote object store: bucket and full object path to artifact. -/
abbrev S3Store (α : Type) : Type := String → String → Artifact α

def Artifact.asTable : Artifact α → List PatentRecord
  | .table t => t
  | _ => []

def Artifact.asMatrix : Artifact α → List (List α)
  | .matrix m => m
  | _ => []

def Artifact.asIdxMap : Artifact α → List (String × ℕ)
  | .idxMap m => m
  | _ => []

def Artifact.asTopics : Artifact α → TopicModel α
  | .topics tm => tm
  | _ => fun _ => []

def Artifact.asAggCount : Artifact α → List TopicCountRow
  | .aggCount t => t
  | _ => []

def Artifact.asAggYear : Artifact α → List ByYearRow
  | .aggYear t => t
  | _ => []

/-- The underlying fetch of the `@cache`-wrapped `load_df` (s3_utils.py
lines 191–193), keyed like the Python memo by the (bucket, prefix)
argument tuple. -/
def loadDfFetch (store : S3Store α) (bp : String × String) : Artifact α :=
  store bp.1 (s3Path bp.2 "df_full.pkl")

/-- One top-to-bottom render of pages/patent_explorer.py: line 12 loads
the four artifacts, each with the explicit argument `prefix="outputs_sample"`
and the configured bucket (DATASET_TYPE plays no part); lines 17–52 then
run the lookup.  Returns the (bucket, path) pairs fetched and the page
outcome.  The `load_faiss_index` loader is imported by the page but never
called. -/
def explorerRun (store : S3Store α) (cfg : Config) (pid : String) :
    List (String × String) × Except String (LookupResult α) :=
  let df := (store cfg.bucket (s3Path "outputs_sample" "df_full.pkl")).asTable
  let emb := (store cfg.bucket (s3Path "outputs_sample" "embeddings_normalized.npy")).asMatrix
  let patent_to_idx := (store cfg.bucket (s3Path "outputs_sample" "patent_to_idx.pkl")).asIdxMap
  let tm := (store cfg.bucket (s3Path "outputs_sample" "bertopic_model_dir.zip")).asTopics
  ([(cfg.bucket, s3Path "outputs_sample" "df_full.pkl"),
    (cfg.bucket, s3Path "outputs_sample" "embeddings_normalized.npy"),
    (cfg.bucket, s3Path "outputs_sample" "patent_to_idx.pkl"),
    (cfg.bucket, s3Path "outputs_sample" "bertopic_model_dir.zip")],
   lookupPatent df emb patent_to_idx tm pid)

/-- One top-to-bottom render of patents_dashboard.py at the loading
level: lines 32–33 call `load_topics_by_year_df()` and
`load_topics_count_df()` with no arguments, so both use the configured
default bucket and the DATASET_TYPE-derived default prefix. -/
def dashboardRun (store : S3Store α) (cfg : Config) :
    DashArtifacts × List TopicCountRow :=
  let byYear := (store cfg.bucket (s3Path (s3DefaultPfx cfg) "df_topics_by_year.pkl")).asAggYear
  let topicsCount := (store cfg.bucket (s3Path (s3DefaultPfx cfg) "df_topics_count.pkl")).asAggCount
  dashboardRender ⟨byYear, topicsCount⟩

/-! ### Helper lemmas -/

theorem keyed_length (xs : List α) : (keyed xs).length = xs.length := by
  simp [keyed]

theorem map_snd_keyed (xs : List α) :
    (keyed xs).map Prod.snd = List.range xs.length := by
  simp only [keyed, List.map_map]
  exact List.map_id (List.range xs.length)

theorem keyed_mem {xs : List α} {p : α × ℕ} (hp : p ∈ keyed xs) :
    p.1 = xs.getD p.2 0 ∧ p.2 < xs.length := by
  rcases List.mem_map.mp hp with ⟨i, hi, rfl⟩
  exact ⟨rfl, List.mem_range.mp hi⟩

theorem argsortAsc_perm (xs : List α) :
    (argsortAsc xs).Perm (List.range xs.length) := by
  have h := (List.perm_insertionSort keyAsc (keyed xs)).map Prod.snd
  rw [map_snd_keyed] at h
  exact h

theorem argsortAsc_length (xs : List α) :
    (argsortAsc xs).length = xs.length := by
  simpa using (argsortAsc_perm xs).length_eq

theorem argsortAsc_nodup (xs : List α) : (argsortAsc xs).Nodup :=
  ((List.nodup_range xs.length).perm (argsortAsc_perm xs).symm)

theorem sortKey_mem {xs : List α} {p : α × ℕ}
    (hp : p ∈ List.insertionSort keyAsc (keyed xs)) :
    p.1 = xs.getD p.2 0 ∧ p.2 < xs.length :=
  keyed_mem ((List.perm_insertionSort keyAsc (keyed xs)).mem_iff.mp hp)

theorem sortedDescBy_perm {β γ : Type} [LinearOrder γ] (f : β → γ) (l : List β) :
    (sortedDescBy f l).Perm l := by
  have h := (List.perm_insertionSort (keyDescBy f) (withIdx l)).map Prod.fst
  rwa [withIdx, List.map_fst_zip _ _ (by simp)] at h

theorem sortedDescBy_pairwise {β γ : Type} [LinearOrder γ] (f : β → γ)
    (l : List β) : (sortedDescBy f l).Pairwise (fun a b => f b ≤ f a) := by
  have hs : (List.insertionSort (keyDescBy f) (withIdx l)).Pairwise (keyDescBy f) :=
    List.sorted_insertionSort (keyDescBy f) (withIdx l)
  refine List.pairwise_map.mpr (hs.imp ?_)
  intro p q hpq
  rcases hpq with h | ⟨h, _⟩
  · exact le_of_lt h
  · exact le_of_eq h.symm

theorem sort_head_of_strict_min {xs : List α} {idx : ℕ}
    (hidx : idx < xs.length) (hmin : xs.getD idx 0 = -1)
    (hothers : ∀ j, j < xs.length → j ≠ idx → -1 < xs.getD j 0) :
    ∃ t, List.insertionSort keyAsc (keyed xs) = ((-1 : α), idx) :: t ∧
      idx ∉ t.map Prod.snd := by
  have hmem : ((-1 : α), idx) ∈ List.insertionSort keyAsc (keyed xs) := by
    apply (List.perm_insertionSort keyAsc (keyed xs)).mem_iff.mpr
    exact List.mem_map.mpr ⟨idx, List.mem_range.mpr hidx, by rw [hmin]⟩
  obtain ⟨a, t, hat⟩ : ∃ a t, List.insertionSort keyAsc (keyed xs) = a :: t := by
    cases h : List.insertionSort keyAsc (keyed xs) with
    | nil => rw [h] at hmem; exact absurd hmem (List.not_mem_nil _)
    | cons a t => exact ⟨a, t, rfl⟩
  have hsorted : (a :: t).Pairwise keyAsc :=
    hat ▸ List.sorted_insertionSort keyAsc (keyed xs)
  have ha : a = ((-1 : α), idx) := by
    by_contra hne
    have hmem' : ((-1 : α), idx) ∈ t := by
      rw [hat] at hmem
      rcases List.mem_cons.mp hmem with h | h
      · exact absurd h.symm hne
      · exact h
    have hr : keyAsc a (-1, idx) := (List.pairwise_cons.mp hsorted).1 _ hmem'
    have haK := sortKey_mem (hat ▸ List.mem_cons_self a t)
    by_cases hai : a.2 = idx
    · exact hne (Prod.ext (by rw [haK.1, hai, hmin]) hai)
    · have hgt : -1 < a.1 := haK.1 ▸ hothers a.2 haK.2 hai
      rcases hr with h | ⟨h, _⟩
      · exact absurd (show a.1 < -1 from h) (not_lt.mpr (le_of_lt hgt))
      · exact absurd (show a.1 = -1 from h) (ne_of_gt hgt)
  refine ⟨t, ha ▸ hat, ?_⟩
  have hnodup : (argsortAsc xs).Nodup := argsortAsc_nodup xs
  rw [argsortAsc, hat, ha] at hnodup
  simp only [List.map_cons] at hnodup
  exact (List.nodup_cons.mp hnodup).1

theorem topIndices_excludes_query (xs : List α) (idx : ℕ)
    (h6 : 6 ≤ xs.length) (hidx : idx < xs.length)
    (hmin : xs.getD idx 0 = -1)
    (hothers : ∀ j, j < xs.length → j ≠ idx → -1 < xs.getD j 0) :
    (topIndices xs).length = 5 ∧ idx ∉ topIndices xs := by
  obtain ⟨t, hat, hnot⟩ := sort_head_of_strict_min hidx hmin hothers
  have hargs : argsortAsc xs = idx :: t.map Prod.snd := by
    rw [argsortAsc, hat]; rfl
  have hlen : (t.map Prod.snd).length = xs.length - 1 := by
    have := argsortAsc_length xs
    rw [hargs] at this
    simp only [List.length_cons] at this
    omega
  have hdrop : (argsortAsc xs).drop (xs.length - 5) =
      (t.map Prod.snd).drop (xs.length - 6) := by
    rw [hargs]
    have : xs.length - 5 = (xs.length - 6) + 1 := by omega
    rw [this, List.drop_succ_cons]
  constructor
  · rw [topIndices, List.length_reverse, hdrop, List.length_drop, hlen]
    omega
  · rw [topIndices, List.mem_reverse, hdrop]
    intro hmem
    exact hnot ((List.drop_sublist _ _).mem hmem)

theorem topIndices_pairwise (xs : List α) :
    (topIndices xs).Pairwise
      (fun i j => xs.getD j 0 < xs.getD i 0 ∨
        (xs.getD i 0 = xs.getD j 0 ∧ j < i)) := by
  have hs : (List.insertionSort keyAsc (keyed xs)).Pairwise keyAsc :=
    List.sorted_insertionSort keyAsc (keyed xs)
  have hneq : (List.insertionSort keyAsc (keyed xs)).Pairwise
      (fun p q : α × ℕ => p.2 ≠ q.2) :=
    List.pairwise_map.mp (argsortAsc_nodup xs)
  have hT : (List.insertionSort keyAsc (keyed xs)).Pairwise
      (fun p q : α × ℕ => xs.getD p.2 0 < xs.getD q.2 0 ∨
        (xs.getD p.2 0 = xs.getD q.2 0 ∧ p.2 < q.2)) := by
    refine List.Pairwise.imp_of_mem ?_ (hs.and hneq)
    intro p q hp hq hpq
    obtain ⟨⟨hpv, _⟩, ⟨hqv, _⟩⟩ := And.intro (sortKey_mem hp) (sortKey_mem hq)
    rcases hpq.1 with h | ⟨h, hle⟩
    · exact Or.inl (by rw [← hpv, ← hqv]; exact h)
    · exact Or.inr ⟨by rw [← hpv, ← hqv]; exact h,
        lt_of_le_of_ne hle hpq.2⟩
  have hidx : (argsortAsc xs).Pairwise
      (fun i j => xs.getD i 0 < xs.getD j 0 ∨
        (xs.getD i 0 = xs.getD j 0 ∧ i < j)) :=
    List.pairwise_map.mpr hT
  have hdrop := hidx.sublist (List.drop_sublist (xs.length - 5) _)
  have hrev := List.pairwise_reverse.mpr hdrop
  refine hrev.imp ?_
  intro i j h
  rcases h with h | ⟨h, hlt⟩
  · exact Or.inl h
  · exact Or.inr ⟨h.symm, hlt⟩

theorem tableLookup_cons_self {κ β : Type} [DecidableEq κ] (k : κ) (v : β)
    (s : CacheTable κ β) : tableLookup ((k, v) :: s) k = some v := by
  simp [tableLookup, List.find?]

theorem tableLookup_cons_ne {κ β : Type} [DecidableEq κ] {k k' : κ} (v : β)
    (s : CacheTable κ β) (h : k' ≠ k) :
    tableLookup ((k', v) :: s) k = tableLookup s k := by
  simp [tableLookup, List.find?, h]

theorem tableLookup_consistent {κ β : Type} [DecidableEq κ] {fetch : κ → β}
    {s : CacheTable κ β} (h : Consistent fetch s) {k : κ} {v : β}
    (hv : tableLookup s k = some v) : v = fetch k := by
  unfold tableLookup at hv
  cases hfind : s.find? (fun p => p.1 = k) with
  | none => rw [hfind] at hv; cases hv
  | some p =>
    rw [hfind] at hv
    simp only [Option.map_some', Option.some.injEq] at hv
    have hmem := List.mem_of_find?_eq_some hfind
    have hpred : p.1 = k := by simpa using List.find?_some hfind
    rw [← hv, h p hmem, hpred]

theorem cachedCall_fst {κ β : Type} [DecidableEq κ] {fetch : κ → β}
    {s : CacheTable κ β} (h : Consistent fetch s) (k : κ) :
    (cachedCall fetch k s).1 = fetch k := by
  unfold cachedCall
  cases hl : tableLookup s k with
  | none => rfl
  | some v => simpa [hl] using tableLookup_consistent h hl

theorem cachedCall_twice {κ β : Type} [DecidableEq κ] (fetch : κ → β)
    (s : CacheTable κ β) (k : κ) :
    cachedCall fetch k (cachedCall fetch k s).2.1 =
      ((cachedCall fetch k s).1, (cachedCall fetch k s).2.1, false) := by
  unfold cachedCall
  cases hl : tableLookup s k with
  | none => simp [tableLookup_cons_self]
  | some v => simp [hl]

theorem notMem_fetchesDuring {κ β : Type} [DecidableEq κ] (fetch : κ → β)
    (ks : List κ) : ∀ (s : CacheTable κ β) (k : κ),
    (∃ v, tableLookup s k = some v) → k ∉ fetchesDuring fetch ks s := by
  induction ks with
  | nil => intro s k _; simp [fetchesDuring]
  | cons k' ks ih =>
    intro s k hk
    unfold fetchesDuring
    cases hl : tableLookup s k' with
    | some v => exact ih s k hk
    | none =>
      obtain ⟨v, hv⟩ := hk
      have hne : k' ≠ k := by
        intro he
        rw [he, hv] at hl
        cases hl
      intro hmem
      rcases List.mem_cons.mp hmem with h | h
      · exact hne h.symm
      · exact ih ((k', fetch k') :: s) k
          ⟨v, by rw [tableLookup_cons_ne _ _ hne]; exact hv⟩ h

theorem fetchesDuring_nodup {κ β : Type} [DecidableEq κ] (fetch : κ → β)
    (ks : List κ) : ∀ s : CacheTable κ β, (fetchesDuring fetch ks s).Nodup := by
  induction ks with
  | nil => intro s; simp [fetchesDuring]
  | cons k' ks ih =>
    intro s
    unfold fetchesDuring
    cases hl : tableLookup s k' with
    | some v => exact ih s
    | none =>
      refine List.nodup_cons.mpr ⟨?_, ih _⟩
      exact notMem_fetchesDuring fetch ks _ k'
        ⟨fetch k', tableLookup_cons_self k' (fetch k') s⟩

theorem mentions_of_append (x key : String) : mentions (x ++ key) key :=
  ⟨x.data, [], by simp [String.data_append]⟩

theorem mentions_append_s3Path (pre pfx key : String) :
    mentions (pre ++ s3Path pfx key) key := by
  unfold s3Path
  by_cases h : pfx = ""
  · rw [if_pos h]
    exact mentions_of_append pre key
  · rw [if_neg h, ← String.append_assoc]
    exact mentions_of_append (pre ++ (pfx ++ "/")) key

theorem maskedSims_length (emb : List (List α)) (idx : ℕ) :
    (maskedSims emb idx).length = emb.length := by
  simp [maskedSims, cosineSims]

theorem maskedSims_getD_self {emb : List (List α)} {idx : ℕ}
    (h : idx < emb.length) : (maskedSims emb idx).getD idx 0 = -1 := by
  unfold maskedSims
  set s := cosineSims (emb.getD idx []) emb with hs
  have hl : idx < s.length := by simp [hs, cosineSims, h]
  rw [List.getD_eq_getElem?_getD, List.getElem?_set_self',
    List.getElem?_eq_getElem hl]
  rfl

/-! ### Claims -/

/-- A six-row patent table used for concrete witness evaluations. -/
def dfW6 : List PatentRecord :=
  [⟨"p0", "t0", 1⟩, ⟨"p1", "t1", 2⟩, ⟨"p2", "t2", 3⟩,
   ⟨"p3", "t3", 4⟩, ⟨"p4", "t4", 5⟩, ⟨"p5", "t5", 6⟩]

/-- The matching index map for `dfW6`. -/
def p2iW6 : List (String × ℕ) :=
  [("p0", 0), ("p1", 1), ("p2", 2), ("p3", 3), ("p4", 4), ("p5", 5)]

/-- A six-row integer embedding matrix whose masked similarity row for
query 0 is `[-1, 0, 1, 2, 3, 4]`. -/
def embW6 : List (List ℤ) :=
  [[1, 0], [0, 1], [1, 1], [2, 1], [3, 1], [4, 1]]

/-- A six-row embedding matrix of exactly unit-norm rows (integer
coordinate vectors), so the raw dot product is exactly the cosine
similarity the code computes, and every similarity (0 or 1) is exactly
representable in floating point.  The masked similarity row for query 0
is `[-1, 0, 0, 1, 1, 1]`: rows 1 and 2 tie, as do rows 3, 4 and 5. -/
def embC2 : List (List ℤ) :=
  [[1, 0, 0], [0, 1, 0], [0, 0, 1], [1, 0, 0], [1, 0, 0], [1, 0, 0]]

/-- C1 counterexample.  The claim asserts that the query patent is never
among the returned neighbors.  On the three-row corpus of the spec's own
worked example (scaled to integers), querying "p0" (row 0) returns the
neighbor identifier sequence ["p2", "p1", "p0"]: with fewer than 6 rows
the slice `argsort()[-5:]` keeps the whole corpus, so masking the query's
similarity to −1 merely moves it to the end of its own neighbor list
instead of removing it. -/
theorem C1_counterexample :
    ((lookupPatent (α := ℤ)
        [⟨"p0", "t0", 1⟩, ⟨"p1", "t1", 2⟩, ⟨"p2", "t2", 3⟩]
        [[1, 0], [0, 1], [1, 1]]
        [("p0", 0), ("p1", 1), ("p2", 2)] (fun _ => []) "p0").toOption.map
      (fun r => r.neighbors.map (fun nb => nb.1))) =
    some ["p2", "p1", "p0"] := by decide

/-- C1 (amended): for a patent identifier resolving to row `idx`, if the
corpus has at least 6 rows AND every other row's masked similarity
strictly exceeds −1 (the mask value −1 is *not* lower than every valid
similarity — it equals the cosine lower bound, so an exactly antipodal
row with a smaller index could displace the query), the lookup returns
exactly 5 neighbors and the query row is not among them. -/
theorem C1_amended (df : List PatentRecord) (emb : List (List α))
    (p2i : List (String × ℕ)) (tm : TopicModel α) (pid : String) (idx : ℕ)
    (hfound : assocLookup p2i pid = some idx)
    (h6 : 6 ≤ emb.length) (hidx : idx < emb.length)
    (hothers : ∀ j, j < emb.length → j ≠ idx →
      -1 < (maskedSims emb idx).getD j 0) :
    ∃ r, lookupPatent df emb p2i tm pid = Except.ok r ∧
      r.neighbors.length = 5 ∧ idx ∉ topIndices (maskedSims emb idx) := by
  have hlen := maskedSims_length emb idx
  have hmain := topIndices_excludes_query (maskedSims emb idx) idx
    (by omega) (by omega) (maskedSims_getD_self hidx)
    (fun j hj hne => hothers j (by omega) hne)
  unfold lookupPatent
  rw [hfound]
  refine ⟨_, rfl, ?_, hmain.2⟩
  simpa using hmain.1

/-- C1 witness: the amended claim evaluated on the concrete six-row
corpus `embW6` with query "p0" (row 0). -/
theorem C1_witness :
    assocLookup p2iW6 "p0" = some 0 ∧ 6 ≤ embW6.length ∧ 0 < embW6.length ∧
    (∀ j, j < embW6.length → j ≠ 0 → -1 < (maskedSims embW6 0).getD j 0) ∧
    ∃ r, lookupPatent dfW6 embW6 p2iW6 (fun _ => []) "p0" = Except.ok r ∧
      r.neighbors.length = 5 ∧ 0 ∉ topIndices (maskedSims embW6 0) :=
  ⟨by decide, by decide, by decide, by decide,
   C1_amended dfW6 embW6 p2iW6 (fun _ => []) "p0" 0
     (by decide) (by decide) (by decide) (by decide)⟩

/-- C2 counterexample.  The claim asserts that on equal similarities the
tie is broken by row order (the earlier row first).  Every row of `embC2`
is exactly unit-norm, so the real `cosine_similarity` values equal the
modelled ones (`[-1, 0, 0, 1, 1, 1]` after masking, all exactly
representable floats), and on a six-element array numpy's introsort
argsort is deterministically plain insertion sort (stable ascending) —
the real code returns exactly the modelled neighbor index order
`[5, 4, 3, 2, 1]`.  Tied row 2 precedes tied row 1 (and tied rows
3, 4, 5 appear as 5, 4, 3): `[::-1]` reverses an ascending argsort, so
ties come out in descending row index, not row order. -/
theorem C2_counterexample :
    topIndices (maskedSims embC2 0) = [5, 4, 3, 2, 1] ∧
    (maskedSims embC2 0).getD 1 0 = (maskedSims embC2 0).getD 2 0 ∧
    ¬ (topIndices (maskedSims embC2 0)).Pairwise
      (fun i j => (maskedSims embC2 0).getD i 0 ≠ (maskedSims embC2 0).getD j 0
        ∨ i < j) := by decide

/-- C2 (amended): the neighbor list is the top-index list paired with
each row's identifier, title and score, and scores are non-increasing
along the list.  The non-increasing property is tie-independent: any
correct ascending argsort, whatever its tie permutation, yields the same
value at each position, so reversing it gives a non-increasing score
sequence.  The spec's tie rule (earlier row first) is dropped from the
amended claim: the code guarantees no tie order at all — numpy's default
argsort is unstable — and where its behavior is deterministic (insertion
sort on small arrays) ties come out in descending row index, as the
counterexample shows. -/
theorem C2_amended (df : List PatentRecord) (emb : List (List α))
    (p2i : List (String × ℕ)) (tm : TopicModel α) (pid : String) (idx : ℕ)
    (hfound : assocLookup p2i pid = some idx) :
    ∃ r, lookupPatent df emb p2i tm pid = Except.ok r ∧
      r.neighbors = (topIndices (maskedSims emb idx)).map (fun i =>
        ((df.getD i default).patent_number, (maskedSims emb idx).getD i 0,
          (df.getD i default).title)) ∧
      r.neighbors.Pairwise (fun a b => b.2.1 ≤ a.2.1) := by
  unfold lookupPatent
  rw [hfound]
  refine ⟨_, rfl, rfl, ?_⟩
  refine List.pairwise_map.mpr ((topIndices_pairwise (maskedSims emb idx)).imp ?_)
  intro i j h
  rcases h with h | ⟨h, _⟩
  · exact le_of_lt h
  · exact le_of_eq h.symm

/-- C2 witness: the amended claim evaluated on the concrete unit-norm
corpus `embC2` with query "p0" (row 0). -/
theorem C2_witness :
    assocLookup p2iW6 "p0" = some 0 ∧
    ∃ r, lookupPatent dfW6 embC2 p2iW6 (fun _ => []) "p0" = Except.ok r ∧
      r.neighbors = (topIndices (maskedSims embC2 0)).map (fun i =>
        ((dfW6.getD i default).patent_number, (maskedSims embC2 0).getD i 0,
          (dfW6.getD i default).title)) ∧
      r.neighbors.Pairwise (fun a b => b.2.1 ≤ a.2.1) :=
  ⟨by decide, C2_amended dfW6 embC2 p2iW6 (fun _ => []) "p0" 0 (by decide)⟩

/-- C3: for the sentinel topic id −1 the page yields no topic terms; for
any other topic id it queries the model and yields the terms of the (at
most) five heaviest (term, weight) pairs, where the weight-descending
sort is genuinely sorted (adjacent-free pairwise form). -/
theorem C3 (tm : TopicModel α) (tid : Int) :
    (tid = -1 → topicTermsOut tm tid = none) ∧
    (tid ≠ -1 → topicTermsOut tm tid =
        some (((sortedDescBy (fun p => p.2) (tm tid)).take 5).map Prod.fst) ∧
      (((sortedDescBy (fun p => p.2) (tm tid)).take 5).map Prod.fst).length ≤ 5) ∧
    (sortedDescBy (fun p : String × α => p.2) (tm tid)).Pairwise
      (fun a b => b.2 ≤ a.2) := by
  refine ⟨fun h => by simp [topicTermsOut, h], fun h => ⟨?_, ?_⟩,
    sortedDescBy_pairwise _ _⟩
  · by_cases he : (tm tid).isEmpty
    · have hnil : tm tid = [] := List.isEmpty_iff.mp he
      simp [topicTermsOut, h, he, hnil, sortedDescBy, withIdx]
    · simp [topicTermsOut, h, he]
  · simp only [List.length_map]
    exact le_trans (List.length_take_le 5 _) (le_refl _)

/-- C3 witness: the sentinel branch and the five-heaviest-terms branch
evaluated on a concrete integer-weighted model. -/
theorem C3_witness :
    topicTermsOut (α := ℤ) (fun _ => [("a", 1), ("b", 3), ("c", 2)]) (-1) = none ∧
    topicTermsOut (α := ℤ) (fun _ => [("a", 1), ("b", 3), ("c", 2)]) 5 =
      some (((sortedDescBy (fun p => p.2)
        [("a", (1 : ℤ)), ("b", 3), ("c", 2)]).take 5).map Prod.fst) :=
  ⟨(C3 (fun _ => [("a", 1), ("b", 3), ("c", 2)]) (-1)).1 rfl,
   ((C3 (fun _ => [("a", 1), ("b", 3), ("c", 2)]) 5).2.1 (by decide)).1⟩

example :
    topicTermsOut (α := ℤ) (fun _ => [("a", 1), ("b", 3), ("c", 2)]) 5 =
      some ["b", "c", "a"] := by decide

/-- C4: a patent identifier absent from the index map makes the lookup
fail with the page's local not-found message (the `st.error` branch, not
an exception), and the topic model is never queried on that path — the
outcome is identical for any two topic models. -/
theorem C4 (df : List PatentRecord) (emb : List (List α))
    (p2i : List (String × ℕ)) (tm tm' : TopicModel α) (pid : String)
    (habsent : assocLookup p2i pid = none) :
    lookupPatent df emb p2i tm pid =
      Except.error "Patent number not found in system." ∧
    lookupPatent df emb p2i tm pid = lookupPatent df emb p2i tm' pid := by
  unfold lookupPatent
  rw [habsent]
  exact ⟨rfl, rfl⟩

/-- C4 witness: the not-found branch evaluated concretely, with two
observably different topic models. -/
theorem C4_witness :
    assocLookup p2iW6 "zz" = none ∧
    lookupPatent dfW6 embW6 p2iW6 (fun _ => ([] : List (String × ℤ))) "zz" =
      Except.error "Patent number not found in system." ∧
    lookupPatent dfW6 embW6 p2iW6 (fun _ => ([] : List (String × ℤ))) "zz" =
      lookupPatent dfW6 embW6 p2iW6 (fun _ => [("w", 7)]) "zz" :=
  ⟨by decide,
   C4 dfW6 embW6 p2iW6 (fun _ => []) (fun _ => [("w", 7)]) "zz" (by decide)⟩

omit [LinearOrderedCommRing α] in
/-- C5: through a `functools.cache`-wrapped loader (instantiated here
with `load_df`'s underlying fetch, keyed by the (bucket, prefix) tuple),
a call returns exactly the fetched object; an immediately repeated call
with the same key returns the same object from the same table without
fetching; and over any call sequence each distinct key is fetched at
most once. -/
theorem C5 (store : S3Store α) (s : CacheTable (String × String) (Artifact α))
    (h : Consistent (loadDfFetch store) s) (bp : String × String)
    (ks : List (String × String)) :
    (cachedCall (loadDfFetch store) bp s).1 = loadDfFetch store bp ∧
    cachedCall (loadDfFetch store) bp (cachedCall (loadDfFetch store) bp s).2.1 =
      ((cachedCall (loadDfFetch store) bp s).1,
        (cachedCall (loadDfFetch store) bp s).2.1, false) ∧
    (fetchesDuring (loadDfFetch store) ks s).Nodup :=
  ⟨cachedCall_fst h bp, cachedCall_twice (loadDfFetch store) s bp,
   fetchesDuring_nodup (loadDfFetch store) ks s⟩

/-- C5 witness: the cache contract evaluated from an empty memo table on
a two-call sequence with a repeated key. -/
theorem C5_witness :
    Consistent (loadDfFetch (fun _ _ => Artifact.idxMap (α := ℤ) [])) [] ∧
    (cachedCall (loadDfFetch (fun _ _ => Artifact.idxMap (α := ℤ) []))
      ("bkt", "outputs_sample") []).1 =
      loadDfFetch (fun _ _ => Artifact.idxMap (α := ℤ) []) ("bkt", "outputs_sample") ∧
    (fetchesDuring (loadDfFetch (fun _ _ => Artifact.idxMap (α := ℤ) []))
        [("bkt", "outputs_sample"), ("bkt", "outputs_sample")] []).Nodup := by
  have h : Consistent (loadDfFetch (fun _ _ => Artifact.idxMap (α := ℤ) [])) [] := by
    intro p hp
    exact absurd hp (List.not_mem_nil p)
  exact ⟨h,
    (C5 (fun _ _ => Artifact.idxMap []) [] h ("bkt", "outputs_sample")
      [("bkt", "outputs_sample"), ("bkt", "outputs_sample")]).1,
    (C5 (fun _ _ => Artifact.idxMap []) [] h ("bkt", "outputs_sample")
      [("bkt", "outputs_sample"), ("bkt", "outputs_sample")]).2.2⟩

/-- C6 counterexample.  The claim asserts no component ever mutates a
cached artifact in place.  But one dashboard render mutates the cached
per-topic counts table: line 125 of patents_dashboard.py assigns the
derived `topic_status` column directly on the object returned by the
cached loader (no `.copy()`, unlike line 92), so after the render the
cached artifact differs from its state at load time. -/
theorem C6_counterexample :
    (dashboardRender ⟨[], [⟨5, 3, "x", none⟩]⟩).1 ≠
      (⟨[], [⟨5, 3, "x", none⟩]⟩ : DashArtifacts) := by decide

/-- C6 (amended): the explorer page mutates nothing (the −1 write on
line 43 targets the fresh array returned by `cosine_similarity`, which
the embedding `maskedSims` reflects), and a dashboard render leaves the
cached by-year table and every loaded column of the cached topic-count
table unchanged; its only in-place effect is adding the derived
`topic_status` column to the cached topic-count table. -/
theorem C6_amended (a : DashArtifacts) :
    (dashboardRender a).1.byYear = a.byYear ∧
    (dashboardRender a).1.topicsCount = addTopicStatus a.topicsCount ∧
    (dashboardRender a).1.topicsCount.map
        (fun r => (r.topic_id, r.count, r.topic_words)) =
      a.topicsCount.map (fun r => (r.topic_id, r.count, r.topic_words)) := by
  refine ⟨rfl, rfl, ?_⟩
  simp only [dashboardRender, addTopicStatus, List.map_map]
  rfl

/-- C7 counterexample.  The claim asserts the propagated error carries a
human-readable message identifying the failed key.  The loaders re-raise
the underlying exception unchanged (`raise`), so when the transport
fails with a message that does not name the key — here "boom" for key
"patent_to_idx.pkl" — the propagated error does not identify the key
(only the pre-fetch `logger.info` line does). -/
theorem C7_counterexample :
    (loadPickleFromS3 (σ := Unit) (β := Unit) (fun _ => Except.error "boom")
        (fun u => Except.ok u) "patent_to_idx.pkl" "bkt" "outputs_sample").1 =
      Except.error "boom" ∧
    ¬ mentions "boom" "patent_to_idx.pkl" := by
  exact ⟨rfl, by decide⟩

/-- C7 (amended): when the remote object fetch fails, both archive-free
and archive-based loaders fail with the underlying error propagated
unchanged (no retry, no local recovery — the result depends only on the
single fetched value); the failed key is identified in the emitted log,
while the propagated error's message is whatever the underlying failure
carried. -/
theorem C7_amended {σ β : Type} (getObject getObject' : String → Except String σ)
    (unpickle readIndex : σ → Except String β) (key bucket pfx e : String)
    (hp : getObject (s3Path pfx key) = Except.error e) :
    (loadPickleFromS3 getObject unpickle key bucket pfx).1 = Except.error e ∧
    (loadFaissFromS3 getObject readIndex key bucket pfx).1 = Except.error e ∧
    (∃ msg ∈ (loadPickleFromS3 getObject unpickle key bucket pfx).2,
      mentions msg key) ∧
    (getObject' (s3Path pfx key) = getObject (s3Path pfx key) →
      loadPickleFromS3 getObject' unpickle key bucket pfx =
        loadPickleFromS3 getObject unpickle key bucket pfx) := by
  refine ⟨by simp [loadPickleFromS3, hp], by simp [loadFaissFromS3, hp], ?_, ?_⟩
  · refine ⟨"Loading pickle file from s3://" ++ bucket ++ "/" ++ s3Path pfx key,
      ?_, mentions_append_s3Path ("Loading pickle file from s3://" ++ bucket ++ "/")
        pfx key⟩
    simp [loadPickleFromS3, hp]
  · intro hgg
    simp [loadPickleFromS3, hgg]

/-- C7 witness: the amended claim evaluated for a concrete transport
failure "boom" on the pickle and FAISS index keys. -/
theorem C7_witness :
    (fun _ : String => Except.error (ε := String) (α := Unit) "boom")
      (s3Path "outputs_sample" "df_full.pkl") = Except.error "boom" ∧
    (loadPickleFromS3 (β := Unit) (fun _ => Except.error "boom")
        (fun u => Except.ok u) "df_full.pkl" "bkt" "outputs_sample").1 =
      Except.error "boom" ∧
    (∃ msg ∈ (loadPickleFromS3 (β := Unit) (fun _ => Except.error "boom")
        (fun u => Except.ok u) "df_full.pkl" "bkt" "outputs_sample").2,
      mentions msg "df_full.pkl") :=
  ⟨rfl,
   (C7_amended (fun _ => Except.error "boom") (fun _ => Except.error "boom")
     (fun u => Except.ok u) (fun u => Except.ok u)
     "df_full.pkl" "bkt" "outputs_sample" "boom" rfl).1,
   (C7_amended (fun _ => Except.error "boom") (fun _ => Except.error "boom")
     (fun u => Except.ok u) (fun u => Except.ok u)
     "df_full.pkl" "bkt" "outputs_sample" "boom" rfl).2.2.1⟩

/-- C8: the dashboard's top-10 computation never returns a sentinel
(topic_id = −1) row, returns at most 10 rows, and returns them in
non-increasing count order. -/
theorem C8 (df_topics : List TopicCountRow) :
    (∀ r ∈ topTopicsCount df_topics, r.topic_id ≠ -1) ∧
    (topTopicsCount df_topics).length ≤ 10 ∧
    (topTopicsCount df_topics).Pairwise (fun a b => b.count ≤ a.count) := by
  refine ⟨?_, ?_, ?_⟩
  · intro r hr
    have hr' : r ∈ sortedDescBy (fun r => r.count)
        (df_topics.filter (fun r => r.topic_id ≠ -1)) :=
      (List.take_sublist _ _).subset hr
    have hmem : r ∈ df_topics.filter (fun r => r.topic_id ≠ -1) :=
      (sortedDescBy_perm _ _).subset hr'
    simpa using List.of_mem_filter hmem
  · exact List.length_take_le 10 _
  · exact (sortedDescBy_pairwise _ _).sublist (List.take_sublist _ _)

/-- C8 witness: the top-10 contract evaluated on a concrete aggregate
table containing a sentinel row. -/
theorem C8_witness :
    (topTopicsCount
      [⟨-1, 100, "w0", none⟩, ⟨1, 2, "w1", none⟩, ⟨2, 5, "w2", none⟩]).length ≤ 10 ∧
    (⟨2, 5, "w2", none⟩ : TopicCountRow).topic_id ≠ -1 :=
  ⟨(C8 [⟨-1, 100, "w0", none⟩, ⟨1, 2, "w1", none⟩, ⟨2, 5, "w2", none⟩]).2.1,
   (C8 [⟨-1, 100, "w0", none⟩, ⟨1, 2, "w1", none⟩, ⟨2, 5, "w2", none⟩]).1
     ⟨2, 5, "w2", none⟩ (by decide)⟩

example :
    topTopicsCount [⟨-1, 100, "w0", none⟩, ⟨1, 2, "w1", none⟩, ⟨2, 5, "w2", none⟩] =
      [⟨2, 5, "w2", none⟩, ⟨1, 2, "w1", none⟩] := by decide

/-- The spec's worked example: embedding rows `[[1,0],[0.8,0.6],[0,1]]`,
already normalized, with query row 0. -/
def specExampleEmb : List (List ℚ) := [[1, 0], [4/5, 3/5], [0, 1]]

theorem specExample_masked : maskedSims specExampleEmb 0 = [-1, 4/5, 0] := by
  norm_num [maskedSims, cosineSims, dot, specExampleEmb]

theorem topIndices_three {x0 x1 x2 : α} (h02 : x0 < x2) (h21 : x2 < x1) :
    topIndices [x0, x1, x2] = [1, 2, 0] := by
  have hc1 : ¬ keyAsc (x1, 1) (x2, 2) := by
    rintro (h | ⟨h, _⟩)
    · exact absurd h (not_lt.mpr (le_of_lt h21))
    · exact absurd h (ne_of_gt h21)
  have hc2 : keyAsc (x0, 0) (x2, 2) := Or.inl h02
  simp [topIndices, argsortAsc, keyed, List.range_succ,
    List.insertionSort, List.orderedInsert, hc1, hc2]

theorem specExample_top : topIndices (maskedSims specExampleEmb 0) = [1, 2, 0] := by
  rw [specExample_masked]
  exact topIndices_three (by norm_num) (by norm_num)

/-- C9 counterexample.  The claim asserts the returned neighbor order on
the spec's three-row example is [row 1, row 2].  The code instead returns
[row 1, row 2, row 0]: with only 3 rows the slice `argsort()[-5:]` keeps
every row, so the query row 0 itself trails its own neighbor list. -/
theorem C9_counterexample :
    topIndices (maskedSims specExampleEmb 0) ≠ [1, 2] ∧
    0 ∈ topIndices (maskedSims specExampleEmb 0) := by
  rw [specExample_top]
  exact ⟨by decide, by decide⟩

/-- C9 (amended): on the spec's example the similarity to row 1 is 0.8
and to row 2 is 0.0, and the returned neighbor order is
[row 1, row 2, row 0] — the query row trails because the corpus has fewer
than 6 rows. -/
theorem C9_amended :
    (maskedSims specExampleEmb 0).getD 1 0 = 4/5 ∧
    (maskedSims specExampleEmb 0).getD 2 0 = 0 ∧
    topIndices (maskedSims specExampleEmb 0) = [1, 2, 0] := by
  rw [specExample_masked]
  refine ⟨rfl, rfl, ?_⟩
  rw [← specExample_masked]
  exact specExample_top

/-- C10: the explorer page's fetched artifact set and rendered outcome
are independent of DATASET_TYPE — for any two configurations sharing a
bucket the run is identical, and every fetched path lives under the
hard-coded "outputs_sample" prefix.  (By contrast `dashboardRun` uses the
DATASET_TYPE-derived default prefix `s3DefaultPfx`.) -/
theorem C10 (store : S3Store α) (c c' : Config) (pid : String)
    (hb : c.bucket = c'.bucket) :
    explorerRun store c pid = explorerRun store c' pid ∧
    (explorerRun store c pid).1.map Prod.snd =
      ["outputs_sample/df_full.pkl", "outputs_sample/embeddings_normalized.npy",
       "outputs_sample/patent_to_idx.pkl", "outputs_sample/bertopic_model_dir.zip"] := by
  obtain ⟨b, d⟩ := c
  obtain ⟨b', d'⟩ := c'
  have hbb : b = b' := hb
  subst hbb
  exact ⟨rfl, rfl⟩

/-- C10 witness: two configurations differing only in DATASET_TYPE
("SAMPLE" vs "FULL") produce identical explorer runs. -/
theorem C10_witness :
    (⟨"bkt", "SAMPLE"⟩ : Config).bucket = (⟨"bkt", "FULL"⟩ : Config).bucket ∧
    explorerRun (α := ℤ) (fun _ _ => Artifact.idxMap []) ⟨"bkt", "SAMPLE"⟩ "9713127" =
      explorerRun (fun _ _ => Artifact.idxMap []) ⟨"bkt", "FULL"⟩ "9713127" :=
  ⟨rfl, (C10 (fun _ _ => Artifact.idxMap []) ⟨"bkt", "SAMPLE"⟩ ⟨"bkt", "FULL"⟩
    "9713127" rfl).1⟩

end PatentsTopic
